import Mathlib

/-!
Verification of the unconfirmed-transaction fee-escalation engine (the
"bumpfee" monitor) of this repository.  The engine lives in the `main`
function of the monitor source file: it keeps an in-memory map from
transaction id to `TxInfo`, polls the node, tracks unconfirmed outputs,
reports their age when the block height changes, and escalates fees once a
transaction has aged past `bumpfeeBlockInterval`, capped at `feeCap` and
gated on a minimum increment of 1.

Embedding conventions:
* Go `float64` quantities (fees, fee rates, policy parameters) are modelled
  as exact rationals (`ℚ`); block heights as integers (`ℤ`).
* The remote RPC service is modelled as oracle inputs: each cycle carries
  the `getblockcount` outcome, each wallet its `listunspent` outcome, and
  each unspent item the `gettransaction` and `bumpfee` outcomes that the
  engine would observe if it made those calls.
* The Go map `txInfos` is modelled as an association list whose keys are
  kept duplicate-free (insertions happen only when the key is absent,
  mirroring the source, which writes `txInfos[txid]` only when the lookup
  missed).
* Log lines that the claims talk about (bumpfee invocations, age reports,
  dry-run removals) are modelled as an event trace.
-/

/-- Tracked per-transaction state: the `TxInfo` struct of the source
(wallet name, first-seen block height, fee-rate estimate frozen at first
sighting). -/
structure TxInfo where
  walletName : String
  firstBlockHeight : ℤ
  currentFeerate : ℚ
deriving DecidableEq

/-- The policy part of the monitor configuration: `IsBump` (apply vs dry
run), `BumpfeeBlockInterval` (age threshold in blocks), `FeeBumpAmount`
(fee-rate increment) and `FeeCap` (maximum fee rate). -/
structure Config where
  isBump : Bool
  bumpfeeBlockInterval : ℤ
  feeBumpAmount : ℚ
  feeCap : ℚ
deriving DecidableEq

/-- The transaction state store `txInfos`: an association list from txid to
`TxInfo` standing for the Go map. -/
abbrev Store := List (String × TxInfo)

/-- Lookup in the store (`info, exists := txInfos[txid]`). -/
def lookupTx : Store → String → Option TxInfo
  | [], _ => none
  | (k, v) :: rest, txid => if k = txid then some v else lookupTx rest txid

/-- Removal from the store (`delete(txInfos, txid)`). -/
def eraseTx : Store → String → Store
  | [], _ => []
  | (k, v) :: rest, txid =>
    if k = txid then eraseTx rest txid else (k, v) :: eraseTx rest txid

/-- The store has at most one entry per transaction id. -/
def keysNodup (st : Store) : Prop := (st.map Prod.fst).Nodup

/-- Fee estimator of the source:
`feerate := math.Abs(fee) * 1e8 / float64(len(hex)) * 2`. -/
def estimateFeerate (fee : ℚ) (hex : String) : ℚ :=
  |fee| * 100000000 / (hex.length : ℚ) * 2

/-- Modelled from the spec: the estimator formula exactly as the
specification words it, for comparison with `estimateFeerate` — size is
`len(rawHex) / 2` and the rate is `abs(feeAbsolute) * UNIT_SCALE / size * 2`
with `UNIT_SCALE = 1e8`. -/
def specFeerate (fee : ℚ) (hex : String) : ℚ :=
  |fee| * 100000000 / ((hex.length : ℚ) / 2) * 2

/-- Candidate escalation rate:
`newFeerate := info.CurrentFeerate + config.FeeBumpAmount` followed by
`if newFeerate > config.FeeCap { newFeerate = config.FeeCap }`. -/
def candidateRate (r a c : ℚ) : ℚ :=
  if r + a > c then c else r + a

/-- Go `math.Round` (round half away from zero) followed by the `int`
conversion: `newFeerateRounded := int(math.Round(newFeerate))`. -/
def goRound (x : ℚ) : ℤ :=
  if 0 ≤ x then ⌊x + 1 / 2⌋ else -⌊-x + 1 / 2⌋

/-- The rounded candidate rate the engine passes to `bumpfee`. -/
def roundedCandidate (cfg : Config) (info : TxInfo) : ℤ :=
  goRound (candidateRate info.currentFeerate cfg.feeBumpAmount cfg.feeCap)

/-- Observable actions of the engine that the claims talk about:
`ageReport` is the "unconfirmed for block interval" log line, `bumpCall`
is an actual `bumpfee` RPC invocation, `bumpSuccess` is a completed bump
(new txid parsed from the response), `dryRunRemove` is the dry-run removal
log. -/
inductive Event where
  | ageReport (wallet : String) (txid : String) (ageBlocks : ℤ)
  | bumpCall (txid : String) (feeRate : ℤ)
  | bumpSuccess (txid : String) (newTxid : String) (feeRate : ℤ)
  | dryRunRemove (txid : String) (feeRate : ℤ)
deriving DecidableEq

/-- Outcome of a `bumpfee` RPC call as the engine distinguishes them:
RPC-level error, result not a JSON object, result object without a string
txid field, or success carrying the replacement txid. -/
inductive BumpOutcome where
  | rpcError
  | notAnObject
  | noTxidField
  | ok (newTxid : String)
deriving DecidableEq

/-- Oracle data for one unspent item: the `gettransaction` outcome
(`none` = RPC error, non-object result, or missing/ill-typed fee or hex
field — all of which make the engine skip the item) and the `bumpfee`
outcome that would be observed if the engine called it. -/
structure ItemEnv where
  getTx : Option (ℚ × String)
  bump : BumpOutcome
deriving DecidableEq

/-- One element of the `listunspent` result: either malformed (not a JSON
object, or its txid not a string — the engine skips it) or a txid. -/
inductive UnspentItem where
  | invalid
  | valid (txid : String)
deriving DecidableEq

/-- The escalation step of the engine for one transaction (source lines
326–365): if the age reached `bumpfeeBlockInterval`, compute the capped
candidate rate; if the increment is at least 1, either call `bumpfee`
(apply mode) — removing the entry only when the response parses, leaving
the store untouched on RPC error or schema error — or remove the entry
without any call (dry run); otherwise leave everything unchanged. -/
def escalate (cfg : Config) (curH : ℤ) (txid : String) (info : TxInfo)
    (bump : BumpOutcome) (st : Store) : Store × List Event :=
  if cfg.bumpfeeBlockInterval ≤ curH - info.firstBlockHeight then
    if 1 ≤ candidateRate info.currentFeerate cfg.feeBumpAmount cfg.feeCap - info.currentFeerate then
      if cfg.isBump then
        match bump with
        | BumpOutcome.ok newTxid =>
          (eraseTx st txid,
            [Event.bumpCall txid (roundedCandidate cfg info),
             Event.bumpSuccess txid newTxid (roundedCandidate cfg info)])
        | _ => (st, [Event.bumpCall txid (roundedCandidate cfg info)])
      else (eraseTx st txid, [Event.dryRunRemove txid (roundedCandidate cfg info)])
    else (st, [])
  else (st, [])

/-- The age-report block (source lines 314–324): when the height changed
and the cursor is not the initial -1 sentinel, emit one report per tracked
transaction belonging to the current wallet. -/
def ageEvents (wname : String) (curH lastH : ℤ) (st : Store) : List Event :=
  if curH ≠ lastH ∧ lastH ≠ -1 then
    (st.filter fun p => p.2.walletName == wname).map
      fun p => Event.ageReport wname p.1 (curH - p.2.firstBlockHeight)
  else []

/-- Processing of one unspent item (the body of the `for _, u := range
unspent` loop, source lines 266–365): skip malformed items; track a new
txid via `gettransaction` (skipping the item on any failure); then run the
age-report block and the escalation step. -/
def processItem (cfg : Config) (wname : String) (curH lastH : ℤ)
    (st : Store) (item : UnspentItem) (env : ItemEnv) : Store × List Event :=
  match item with
  | UnspentItem.invalid => (st, [])
  | UnspentItem.valid txid =>
    match lookupTx st txid with
    | some info =>
      let r := escalate cfg curH txid info env.bump st
      (r.1, ageEvents wname curH lastH st ++ r.2)
    | none =>
      match env.getTx with
      | none => (st, [])
      | some (fee, hex) =>
        let info : TxInfo := ⟨wname, curH, estimateFeerate fee hex⟩
        let st1 : Store := (txid, info) :: st
        let r := escalate cfg curH txid info env.bump st1
        (r.1, ageEvents wname curH lastH st1 ++ r.2)

/-- Processing of a wallet's unspent list, in scan-result order. -/
def processItems (cfg : Config) (wname : String) (curH lastH : ℤ) :
    Store → List (UnspentItem × ItemEnv) → Store × List Event
  | st, [] => (st, [])
  | st, (item, env) :: rest =>
    let r := processItem cfg wname curH lastH st item env
    let s := processItems cfg wname curH lastH r.1 rest
    (s.1, r.2 ++ s.2)

/-- One entry of the wallet enumeration together with that wallet's
`listunspent` outcome this cycle: a non-string entry is skipped, a wallet
whose scan fails (`none`: transport, protocol or shape error) is skipped
for the cycle. -/
inductive WalletEntry where
  | invalidName
  | wallet (name : String) (scan : Option (List (UnspentItem × ItemEnv)))
deriving DecidableEq

/-- Processing of one wallet (source lines 246–367). -/
def processWallet (cfg : Config) (curH lastH : ℤ) (st : Store) :
    WalletEntry → Store × List Event
  | WalletEntry.invalidName => (st, [])
  | WalletEntry.wallet _ none => (st, [])
  | WalletEntry.wallet name (some items) => processItems cfg name curH lastH st items

/-- Processing of all wallets of a cycle, in enumeration order. -/
def processWallets (cfg : Config) (curH lastH : ℤ) :
    Store → List WalletEntry → Store × List Event
  | st, [] => (st, [])
  | st, w :: rest =>
    let r := processWallet cfg curH lastH st w
    let s := processWallets cfg curH lastH r.1 rest
    (s.1, r.2 ++ s.2)

/-- Oracle data for one poll cycle: the `getblockcount` outcome (`none` =
RPC error or non-numeric result) and the wallet enumeration with each
wallet's scan outcome. -/
structure CycleEnv where
  blockCount : Option ℤ
  wallets : List WalletEntry
deriving DecidableEq

/-- Result of one poll cycle: the store, the height cursor
(`lastBlockHeight`) going into the next cycle, the event trace, and
whether the cycle reached the `time.Sleep` at the bottom of the loop. -/
structure CycleResult where
  store : Store
  cursor : ℤ
  events : List Event
  slept : Bool
deriving DecidableEq

/-- One iteration of the infinite poll loop (source lines 224–372): a
failed or malformed `getblockcount` makes the loop `continue`
immediately — no wallet processing, no cursor update and no sleep;
otherwise all wallets are processed, the cursor is set to the fetched
height and the cycle ends in the sleep. -/
def processCycle (cfg : Config) (st : Store) (lastH : ℤ) (env : CycleEnv) : CycleResult :=
  match env.blockCount with
  | none => ⟨st, lastH, [], false⟩
  | some h =>
    let r := processWallets cfg h lastH st env.wallets
    ⟨r.1, h, r.2, true⟩

/-- Several consecutive poll cycles, threading store and cursor. -/
def runCycles (cfg : Config) : Store → ℤ → List CycleEnv → List CycleResult
  | _, _, [] => []
  | st, lastH, e :: rest =>
    let r := processCycle cfg st lastH e
    r :: runCycles cfg r.store r.cursor rest

/-! ## Store lemmas -/

theorem lookupTx_eq_none_iff (st : Store) (t : String) :
    lookupTx st t = none ↔ t ∉ st.map Prod.fst := by
  induction st with
  | nil => simp [lookupTx]
  | cons p rest ih =>
    obtain ⟨k, v⟩ := p
    by_cases hk : k = t
    · subst hk
      simp [lookupTx]
    · simp [lookupTx, hk, ih, Ne.symm hk]

theorem lookupTx_eraseTx (st : Store) (x t : String) :
    lookupTx (eraseTx st x) t = if t = x then none else lookupTx st t := by
  induction st with
  | nil => simp [lookupTx, eraseTx]
  | cons p rest ih =>
    obtain ⟨k, v⟩ := p
    by_cases hk : k = x
    · subst hk
      by_cases ht : t = k
      · subst ht
        simpa [eraseTx, lookupTx] using ih
      · simp [eraseTx, lookupTx, Ne.symm ht, ih, ht]
    · by_cases ht : k = t
      · subst ht
        simp [eraseTx, lookupTx, hk]
      · simp [eraseTx, lookupTx, hk, ht, ih]

theorem eraseTx_keys_sublist (st : Store) (x : String) :
    ((eraseTx st x).map Prod.fst).Sublist (st.map Prod.fst) := by
  induction st with
  | nil => simp [eraseTx]
  | cons p rest ih =>
    obtain ⟨k, v⟩ := p
    by_cases hk : k = x
    · simpa [eraseTx, hk] using ih.trans (List.sublist_cons_self k (rest.map Prod.fst))
    · simpa [eraseTx, hk] using ih.cons₂ k

theorem keysNodup_eraseTx (st : Store) (x : String) (h : keysNodup st) :
    keysNodup (eraseTx st x) :=
  (eraseTx_keys_sublist st x).nodup h

theorem keysNodup_cons (st : Store) (txid : String) (info : TxInfo)
    (h : keysNodup st) (hnew : lookupTx st txid = none) :
    keysNodup ((txid, info) :: st) := by
  refine List.nodup_cons.mpr ⟨?_, h⟩
  exact (lookupTx_eq_none_iff st txid).mp hnew

/-! ## Shape lemmas for the escalation step and the age-report block -/

theorem escalate_cases (cfg : Config) (curH : ℤ) (txid : String) (info : TxInfo)
    (bump : BumpOutcome) (st : Store) :
    escalate cfg curH txid info bump st = (st, []) ∨
    escalate cfg curH txid info bump st =
      (st, [Event.bumpCall txid (roundedCandidate cfg info)]) ∨
    (∃ x, escalate cfg curH txid info bump st =
      (eraseTx st txid,
        [Event.bumpCall txid (roundedCandidate cfg info),
         Event.bumpSuccess txid x (roundedCandidate cfg info)])) ∨
    escalate cfg curH txid info bump st =
      (eraseTx st txid, [Event.dryRunRemove txid (roundedCandidate cfg info)]) := by
  unfold escalate
  split
  · split
    · split
      · cases bump with
        | ok x => exact Or.inr (Or.inr (Or.inl ⟨x, rfl⟩))
        | rpcError => exact Or.inr (Or.inl rfl)
        | notAnObject => exact Or.inr (Or.inl rfl)
        | noTxidField => exact Or.inr (Or.inl rfl)
      · exact Or.inr (Or.inr (Or.inr rfl))
    · exact Or.inl rfl
  · exact Or.inl rfl

theorem mem_escalate (cfg : Config) (curH : ℤ) (txid : String) (info : TxInfo)
    (bump : BumpOutcome) (st : Store) (e : Event)
    (he : e ∈ (escalate cfg curH txid info bump st).2) :
    (∃ r, e = Event.bumpCall txid r) ∨ (∃ x r, e = Event.bumpSuccess txid x r) ∨
    (∃ r, e = Event.dryRunRemove txid r) := by
  rcases escalate_cases cfg curH txid info bump st with h | h | ⟨x, h⟩ | h <;>
    rw [h] at he <;> simp at he
  · exact Or.inl ⟨_, he⟩
  · rcases he with he | he
    · exact Or.inl ⟨_, he⟩
    · exact Or.inr (Or.inl ⟨_, _, he⟩)
  · exact Or.inr (Or.inr ⟨_, he⟩)

theorem escalate_skip (cfg : Config) (curH : ℤ) (txid : String) (info : TxInfo)
    (bump : BumpOutcome) (st : Store)
    (hd : candidateRate info.currentFeerate cfg.feeBumpAmount cfg.feeCap - info.currentFeerate < 1) :
    escalate cfg curH txid info bump st = (st, []) := by
  unfold escalate
  split
  · rw [if_neg (not_le.mpr hd)]
  · rfl

theorem mem_ageEvents (wname : String) (curH lastH : ℤ) (st : Store) (e : Event)
    (he : e ∈ ageEvents wname curH lastH st) :
    ∃ t a, e = Event.ageReport wname t a := by
  rw [ageEvents] at he
  split at he
  · obtain ⟨p, _, hp⟩ := List.mem_map.mp he
    exact ⟨p.1, _, hp.symm⟩
  · simp at he

theorem ageEvents_sentinel (wname : String) (curH : ℤ) (st : Store) :
    ageEvents wname curH (-1) st = [] := by
  rw [ageEvents, if_neg]
  intro h
  exact h.2 rfl

/-! ## C1: the fee estimator formula -/

/-- C1 counterexample: the claim says the estimator returns
`abs(feeAbsolute) * UNIT_SCALE / size * 2` with `size = len(rawHex) / 2`
(`specFeerate`), but at `fee = 1`, `rawHex = "ab"` the engine
(`estimateFeerate`, which divides by `len(rawHex)` itself) returns
100000000 while the claimed formula gives 200000000. -/
theorem c1_counterexample : estimateFeerate 1 ("ab") ≠ specFeerate 1 ("ab") := by
  norm_num [estimateFeerate, specFeerate, show ("ab").length = 2 from rfl]

/-- C1 (amended): the fee estimator returns
`abs(feeAbsolute) * UNIT_SCALE / len(rawHex) * 2`, which equals
`abs(feeAbsolute) * UNIT_SCALE / size` (without the trailing `* 2`) for
`size = len(rawHex) / 2`; this is the feeRate stored when a new
transaction is first tracked (here under an age threshold that is
positive, so that the freshly created entry is not erased by an
immediate escalation in the very same step). -/
theorem c1_estimator (fee : ℚ) (hex : String) (hlen : (0:ℚ) < (hex.length : ℚ))
    (cfg : Config) (wname : String) (curH lastH : ℤ) (st : Store) (txid : String)
    (env : ItemEnv) (hnew : lookupTx st txid = none) (henv : env.getTx = some (fee, hex))
    (hint : 0 < cfg.bumpfeeBlockInterval) :
    estimateFeerate fee hex = |fee| * 100000000 / ((hex.length : ℚ) / 2) ∧
    lookupTx (processItem cfg wname curH lastH st (UnspentItem.valid txid) env).1 txid =
      some ⟨wname, curH, estimateFeerate fee hex⟩ := by
  constructor
  · rw [estimateFeerate, div_mul_eq_mul_div, div_div_eq_mul_div]
  · rw [processItem]
    simp only [hnew, henv]
    unfold escalate
    rw [if_neg (by omega : ¬ cfg.bumpfeeBlockInterval ≤ curH - curH)]
    simp [lookupTx]

/-- C1 witness: the amended estimator fact at a concrete input. -/
theorem c1_estimator_witness :
    ((0:ℚ) < ((("ab") : String).length : ℚ)) ∧
    lookupTx [] ("t") = none ∧
    (⟨some (1, ("ab")), BumpOutcome.rpcError⟩ : ItemEnv).getTx = some (1, ("ab")) ∧
    ((0:ℤ) < (⟨true, 2, 1, 10⟩ : Config).bumpfeeBlockInterval) ∧
    (estimateFeerate 1 ("ab") = |(1:ℚ)| * 100000000 / (((("ab") : String).length : ℚ) / 2) ∧
     lookupTx (processItem ⟨true, 2, 1, 10⟩ ("w") 100 99 []
        (UnspentItem.valid ("t")) ⟨some (1, ("ab")), BumpOutcome.rpcError⟩).1 ("t") =
      some ⟨("w"), 100, estimateFeerate 1 ("ab")⟩) :=
  ⟨by norm_num [show ("ab").length = 2 from rfl], rfl, rfl, by norm_num,
   c1_estimator 1 ("ab") (by norm_num [show ("ab").length = 2 from rfl])
     ⟨true, 2, 1, 10⟩ ("w") 100 99 [] ("t") ⟨some (1, ("ab")), BumpOutcome.rpcError⟩
     rfl rfl (by norm_num)⟩

/-! ## C4: the candidate escalation rate -/

/-- C4 counterexample: the claim says the candidate rate is never below
the tracked rate `r` for all `r`, `a`, `c`; with `r = 5`, `a = 0`,
`c = 3` (a fee cap below the tracked rate) the engine computes
`min(5, 3) = 3 < 5`. -/
theorem c4_counterexample : candidateRate 5 0 3 < 5 := by
  norm_num [candidateRate]

/-- C4 (amended): the candidate rate always equals `min(r + a, c)`; it is
never negative or below `r` provided `r` is nonnegative, the bump amount
`a` is nonnegative and the cap `c` is not below `r` (none of which the
engine checks). -/
theorem c4_candidate_rate (r a c : ℚ) (hr : 0 ≤ r) (ha : 0 ≤ a) (hc : r ≤ c) :
    candidateRate r a c = min (r + a) c ∧
    0 ≤ candidateRate r a c ∧ r ≤ candidateRate r a c := by
  refine ⟨?_, ?_, ?_⟩ <;> rw [candidateRate]
  · split
    · next h => exact (min_eq_right (le_of_lt h)).symm
    · next h => exact (min_eq_left (not_lt.mp h)).symm
  · split <;> linarith
  · split <;> linarith

/-- C4 witness: the amended candidate-rate fact at `r = 5`, `a = 2`,
`c = 10`. -/
theorem c4_candidate_rate_witness :
    ((0:ℚ) ≤ 5) ∧ ((0:ℚ) ≤ 2) ∧ ((5:ℚ) ≤ 10) ∧
    (candidateRate 5 2 10 = min (5 + 2 : ℚ) 10 ∧
     0 ≤ candidateRate 5 2 10 ∧ (5:ℚ) ≤ candidateRate 5 2 10) :=
  ⟨by norm_num, by norm_num, by norm_num,
   c4_candidate_rate 5 2 10 (by norm_num) (by norm_num) (by norm_num)⟩

/-! ## C8: end-of-cycle cursor update and sleep -/

/-- C8 counterexample: in a cycle whose `getblockcount` fetch fails the
loop body hits `continue` before the cursor update and the sleep, so the
cycle neither sleeps nor updates the cursor — the claim says every cycle,
including such failing ones, ends by updating the cursor and sleeping. -/
theorem c8_counterexample :
    (processCycle ⟨true, 1, 1, 10⟩ [] 5 ⟨none, []⟩).slept = false ∧
    (processCycle ⟨true, 1, 1, 10⟩ [] 5 ⟨none, []⟩).cursor = 5 := by
  norm_num [processCycle]

/-- C8 (amended): a cycle that obtains the current height ends by setting
the cursor to that height and sleeping `pollIntervalSeconds`; a cycle
whose height fetch fails restarts immediately instead — no cursor update,
no sleep, no wallet processing and no events.  The fixed poll interval
remains the only retry mechanism in the success path. -/
theorem c8_cycle_end (cfg : Config) (st : Store) (lastH : ℤ) (env : CycleEnv) :
    (∀ h, env.blockCount = some h →
      (processCycle cfg st lastH env).cursor = h ∧
      (processCycle cfg st lastH env).slept = true) ∧
    (env.blockCount = none →
      processCycle cfg st lastH env = ⟨st, lastH, [], false⟩) := by
  cases hb : env.blockCount with
  | none => simp [processCycle, hb]
  | some h => simp [processCycle, hb]

/-- C8 witness: a successful cycle at height 7 updates the cursor to 7 and
sleeps. -/
theorem c8_cycle_end_witness :
    (⟨some 7, []⟩ : CycleEnv).blockCount = some 7 ∧
    (processCycle ⟨true, 1, 1, 10⟩ [] 3 ⟨some 7, []⟩).cursor = 7 ∧
    (processCycle ⟨true, 1, 1, 10⟩ [] 3 ⟨some 7, []⟩).slept = true :=
  ⟨rfl, (c8_cycle_end ⟨true, 1, 1, 10⟩ [] 3 ⟨some 7, []⟩).1 7 rfl⟩

/-! ## C9: a failing wallet scan skips only that wallet -/

/-- C9: when one wallet's entry is malformed or its unconfirmed-output
scan fails, that wallet contributes nothing to the cycle, and the
remaining wallets are processed exactly as they would be had the failing
wallet not been enumerated at all — every later wallet is still scanned
and run through the decision engine in the same cycle. -/
theorem c9_wallet_skip (cfg : Config) (curH lastH : ℤ) (st : Store)
    (w : WalletEntry) (rest : List WalletEntry)
    (hw : w = WalletEntry.invalidName ∨ ∃ n, w = WalletEntry.wallet n none) :
    processWallet cfg curH lastH st w = (st, []) ∧
    processWallets cfg curH lastH st (w :: rest) =
      processWallets cfg curH lastH st rest := by
  have h1 : processWallet cfg curH lastH st w = (st, []) := by
    rcases hw with h | ⟨n, h⟩ <;> subst h <;> rfl
  exact ⟨h1, by simp [processWallets, h1]⟩

/-- C9 witness: wallet `w1` fails its scan, wallet `w2` is still
processed in the same cycle. -/
theorem c9_wallet_skip_witness :
    (WalletEntry.wallet ("w1") none = WalletEntry.invalidName ∨
      ∃ n, WalletEntry.wallet ("w1") none = WalletEntry.wallet n none) ∧
    (processWallet ⟨true, 1, 1, 10⟩ 4 3 [] (WalletEntry.wallet ("w1") none) = ([], []) ∧
     processWallets ⟨true, 1, 1, 10⟩ 4 3 []
        [WalletEntry.wallet ("w1") none, WalletEntry.wallet ("w2") (some [])] =
       processWallets ⟨true, 1, 1, 10⟩ 4 3 [] [WalletEntry.wallet ("w2") (some [])]) :=
  ⟨Or.inr ⟨("w1"), rfl⟩,
   c9_wallet_skip ⟨true, 1, 1, 10⟩ 4 3 [] (WalletEntry.wallet ("w1") none)
     [WalletEntry.wallet ("w2") (some [])] (Or.inr ⟨("w1"), rfl⟩)⟩

/-! ## Reduction lemmas for one unspent item -/

theorem processItem_tracked_eq (cfg : Config) (wname : String) (curH lastH : ℤ)
    (st : Store) (txid : String) (info : TxInfo) (env : ItemEnv)
    (ht : lookupTx st txid = some info) :
    processItem cfg wname curH lastH st (UnspentItem.valid txid) env =
      ((escalate cfg curH txid info env.bump st).1,
        ageEvents wname curH lastH st ++ (escalate cfg curH txid info env.bump st).2) := by
  simp only [processItem, ht]

theorem processItem_new_eq (cfg : Config) (wname : String) (curH lastH : ℤ)
    (st : Store) (txid : String) (env : ItemEnv) (fee : ℚ) (hex : String)
    (hl : lookupTx st txid = none) (hg : env.getTx = some (fee, hex)) :
    processItem cfg wname curH lastH st (UnspentItem.valid txid) env =
      ((escalate cfg curH txid ⟨wname, curH, estimateFeerate fee hex⟩ env.bump
          ((txid, ⟨wname, curH, estimateFeerate fee hex⟩) :: st)).1,
        ageEvents wname curH lastH ((txid, ⟨wname, curH, estimateFeerate fee hex⟩) :: st) ++
          (escalate cfg curH txid ⟨wname, curH, estimateFeerate fee hex⟩ env.bump
            ((txid, ⟨wname, curH, estimateFeerate fee hex⟩) :: st)).2) := by
  simp only [processItem, hl, hg]

theorem processItem_getTx_fail (cfg : Config) (wname : String) (curH lastH : ℤ)
    (st : Store) (txid : String) (env : ItemEnv)
    (hl : lookupTx st txid = none) (hg : env.getTx = none) :
    processItem cfg wname curH lastH st (UnspentItem.valid txid) env = (st, []) := by
  simp only [processItem, hl, hg]

theorem escalate_bump_ok (cfg : Config) (curH : ℤ) (txid : String) (info : TxInfo)
    (bump : BumpOutcome) (st : Store) (x : String)
    (hage : cfg.bumpfeeBlockInterval ≤ curH - info.firstBlockHeight)
    (hd : 1 ≤ candidateRate info.currentFeerate cfg.feeBumpAmount cfg.feeCap - info.currentFeerate)
    (hb : cfg.isBump = true) (hv : bump = BumpOutcome.ok x) :
    escalate cfg curH txid info bump st =
      (eraseTx st txid,
        [Event.bumpCall txid (roundedCandidate cfg info),
         Event.bumpSuccess txid x (roundedCandidate cfg info)]) := by
  unfold escalate
  rw [if_pos hage, if_pos hd, hb, if_pos rfl, hv]

theorem escalate_bump_fail (cfg : Config) (curH : ℤ) (txid : String) (info : TxInfo)
    (bump : BumpOutcome) (st : Store)
    (hage : cfg.bumpfeeBlockInterval ≤ curH - info.firstBlockHeight)
    (hd : 1 ≤ candidateRate info.currentFeerate cfg.feeBumpAmount cfg.feeCap - info.currentFeerate)
    (hb : cfg.isBump = true)
    (hv : bump = BumpOutcome.rpcError ∨ bump = BumpOutcome.notAnObject ∨
      bump = BumpOutcome.noTxidField) :
    escalate cfg curH txid info bump st =
      (st, [Event.bumpCall txid (roundedCandidate cfg info)]) := by
  unfold escalate
  rw [if_pos hage, if_pos hd, hb, if_pos rfl]
  rcases hv with hv | hv | hv <;> rw [hv]

theorem escalate_dry (cfg : Config) (curH : ℤ) (txid : String) (info : TxInfo)
    (bump : BumpOutcome) (st : Store)
    (hage : cfg.bumpfeeBlockInterval ≤ curH - info.firstBlockHeight)
    (hd : 1 ≤ candidateRate info.currentFeerate cfg.feeBumpAmount cfg.feeCap - info.currentFeerate)
    (hb : cfg.isBump = false) :
    escalate cfg curH txid info bump st =
      (eraseTx st txid, [Event.dryRunRemove txid (roundedCandidate cfg info)]) := by
  unfold escalate
  rw [if_pos hage, if_pos hd, hb]
  simp

theorem bumpCall_mem_escalate (cfg : Config) (curH : ℤ) (txid : String) (info : TxInfo)
    (bump : BumpOutcome) (st : Store)
    (hage : cfg.bumpfeeBlockInterval ≤ curH - info.firstBlockHeight)
    (hd : 1 ≤ candidateRate info.currentFeerate cfg.feeBumpAmount cfg.feeCap - info.currentFeerate)
    (hb : cfg.isBump = true) :
    Event.bumpCall txid (roundedCandidate cfg info) ∈ (escalate cfg curH txid info bump st).2 := by
  cases bump with
  | ok x => rw [escalate_bump_ok cfg curH txid info _ st x hage hd hb rfl]; simp
  | rpcError => rw [escalate_bump_fail cfg curH txid info _ st hage hd hb (Or.inl rfl)]; simp
  | notAnObject =>
    rw [escalate_bump_fail cfg curH txid info _ st hage hd hb (Or.inr (Or.inl rfl))]; simp
  | noTxidField =>
    rw [escalate_bump_fail cfg curH txid info _ st hage hd hb (Or.inr (Or.inr rfl))]; simp

theorem bumpCall_not_mem_ageEvents (wname : String) (curH lastH : ℤ) (st : Store)
    (t : String) (r : ℤ) : Event.bumpCall t r ∉ ageEvents wname curH lastH st := by
  intro h
  obtain ⟨u, a, hh⟩ := mem_ageEvents wname curH lastH st _ h
  exact absurd hh (by simp)

theorem dryRunRemove_not_mem_ageEvents (wname : String) (curH lastH : ℤ) (st : Store)
    (t : String) (r : ℤ) : Event.dryRunRemove t r ∉ ageEvents wname curH lastH st := by
  intro h
  obtain ⟨u, a, hh⟩ := mem_ageEvents wname curH lastH st _ h
  exact absurd hh (by simp)

theorem ageReport_not_mem_escalate (cfg : Config) (curH : ℤ) (txid : String) (info : TxInfo)
    (bump : BumpOutcome) (st : Store) (u y : String) (a : ℤ) :
    Event.ageReport u y a ∉ (escalate cfg curH txid info bump st).2 := by
  intro h
  rcases mem_escalate cfg curH txid info bump st _ h with ⟨r, hh⟩ | ⟨x, r, hh⟩ | ⟨r, hh⟩ <;>
    exact absurd hh (by simp)

/-! ## C2: one bumpfee call per qualifying output -/

set_option maxHeartbeats 1000000 in
/-- C2 counterexample: the claim says exactly one `bumpfee` call is issued
per qualifying transaction per poll cycle; but the escalation test runs
once per unconfirmed output, so when the same transaction id appears as
two unconfirmed outputs of the wallet and the first call fails (entry left
tracked), the engine issues two `bumpfee` calls for it in one cycle. -/
theorem c2_counterexample :
    (processCycle ⟨true, 5, 2, 10⟩ [(("t"), ⟨("w"), 100, 5⟩)] 100
      ⟨some 105, [WalletEntry.wallet ("w")
        (some [(UnspentItem.valid ("t"), ⟨none, BumpOutcome.rpcError⟩),
               (UnspentItem.valid ("t"), ⟨none, BumpOutcome.rpcError⟩)])]⟩).events.count
      (Event.bumpCall ("t") 7) = 2 := by
  norm_num [processCycle, processWallets, processWallet, processItems, processItem,
    escalate, ageEvents, lookupTx, candidateRate, roundedCandidate, goRound,
    List.count_cons]
  simp

/-- C2 (amended): for each qualifying unconfirmed output naming a tracked
transaction (age at least `bumpIntervalBlocks`, candidate increment at
least 1, apply policy enabled) exactly one `bumpfee` call is issued, with
the rounded candidate rate; on RPC success the tracked entry is removed
and the returned replacement id is not re-tracked; on RPC failure the
store is left unchanged, so the entry is retried next cycle.  (Per poll
cycle this means one call per qualifying output, not per transaction:
a transaction listed under several unconfirmed outputs can receive several
calls in one cycle when earlier calls fail.) -/
theorem c2_bump_per_output (cfg : Config) (wname : String) (curH lastH : ℤ) (st : Store)
    (txid : String) (info : TxInfo) (env : ItemEnv)
    (ht : lookupTx st txid = some info)
    (hage : cfg.bumpfeeBlockInterval ≤ curH - info.firstBlockHeight)
    (hd : 1 ≤ candidateRate info.currentFeerate cfg.feeBumpAmount cfg.feeCap - info.currentFeerate)
    (hb : cfg.isBump = true) :
    (processItem cfg wname curH lastH st (UnspentItem.valid txid) env).2.count
        (Event.bumpCall txid (roundedCandidate cfg info)) = 1 ∧
    (∀ x, env.bump = BumpOutcome.ok x →
      lookupTx (processItem cfg wname curH lastH st (UnspentItem.valid txid) env).1 txid = none ∧
      (x ≠ txid →
        lookupTx (processItem cfg wname curH lastH st (UnspentItem.valid txid) env).1 x =
          lookupTx st x)) ∧
    (env.bump = BumpOutcome.rpcError →
      (processItem cfg wname curH lastH st (UnspentItem.valid txid) env).1 = st) := by
  rw [processItem_tracked_eq cfg wname curH lastH st txid info env ht]
  have hage0 : (ageEvents wname curH lastH st).count
      (Event.bumpCall txid (roundedCandidate cfg info)) = 0 :=
    List.count_eq_zero.mpr (bumpCall_not_mem_ageEvents wname curH lastH st _ _)
  refine ⟨?_, ?_, ?_⟩
  · cases env.bump with
    | ok x =>
      rw [escalate_bump_ok cfg curH txid info (BumpOutcome.ok x) st x hage hd hb rfl]
      simp [List.count_append, hage0]
    | rpcError =>
      rw [escalate_bump_fail cfg curH txid info BumpOutcome.rpcError st hage hd hb (Or.inl rfl)]
      simp [List.count_append, hage0]
    | notAnObject =>
      rw [escalate_bump_fail cfg curH txid info BumpOutcome.notAnObject st hage hd hb
        (Or.inr (Or.inl rfl))]
      simp [List.count_append, hage0]
    | noTxidField =>
      rw [escalate_bump_fail cfg curH txid info BumpOutcome.noTxidField st hage hd hb
        (Or.inr (Or.inr rfl))]
      simp [List.count_append, hage0]
  · intro x hv
    rw [escalate_bump_ok cfg curH txid info _ st x hage hd hb hv]
    constructor
    · rw [lookupTx_eraseTx]
      simp
    · intro hxt
      rw [lookupTx_eraseTx, if_neg hxt]
  · intro hv
    rw [escalate_bump_fail cfg curH txid info _ st hage hd hb (Or.inl hv)]

/-- C2 witness: a qualifying tracked transaction at a concrete input, with
a successful bump. -/
theorem c2_bump_per_output_witness :
    lookupTx [(("t"), ⟨("w"), 100, 5⟩)] ("t") = some ⟨("w"), 100, 5⟩ ∧
    ((⟨true, 5, 2, 10⟩ : Config).bumpfeeBlockInterval ≤ 105 - (100:ℤ)) ∧
    (1 ≤ candidateRate 5 2 10 - 5) ∧
    ((⟨true, 5, 2, 10⟩ : Config).isBump = true) ∧
    ((processItem ⟨true, 5, 2, 10⟩ ("w") 105 100 [(("t"), ⟨("w"), 100, 5⟩)]
        (UnspentItem.valid ("t")) ⟨none, BumpOutcome.ok ("t2")⟩).2.count
        (Event.bumpCall ("t") (roundedCandidate ⟨true, 5, 2, 10⟩ ⟨("w"), 100, 5⟩)) = 1 ∧
     (∀ x, (⟨none, BumpOutcome.ok ("t2")⟩ : ItemEnv).bump = BumpOutcome.ok x →
       lookupTx (processItem ⟨true, 5, 2, 10⟩ ("w") 105 100 [(("t"), ⟨("w"), 100, 5⟩)]
          (UnspentItem.valid ("t")) ⟨none, BumpOutcome.ok ("t2")⟩).1 ("t") = none ∧
       (x ≠ ("t") →
         lookupTx (processItem ⟨true, 5, 2, 10⟩ ("w") 105 100 [(("t"), ⟨("w"), 100, 5⟩)]
            (UnspentItem.valid ("t")) ⟨none, BumpOutcome.ok ("t2")⟩).1 x =
           lookupTx [(("t"), ⟨("w"), 100, 5⟩)] x)) ∧
     ((⟨none, BumpOutcome.ok ("t2")⟩ : ItemEnv).bump = BumpOutcome.rpcError →
       (processItem ⟨true, 5, 2, 10⟩ ("w") 105 100 [(("t"), ⟨("w"), 100, 5⟩)]
          (UnspentItem.valid ("t")) ⟨none, BumpOutcome.ok ("t2")⟩).1 =
         [(("t"), ⟨("w"), 100, 5⟩)])) :=
  ⟨by simp [lookupTx], by norm_num, by norm_num [candidateRate], rfl,
   c2_bump_per_output ⟨true, 5, 2, 10⟩ ("w") 105 100 [(("t"), ⟨("w"), 100, 5⟩)]
     ("t") ⟨("w"), 100, 5⟩ ⟨none, BumpOutcome.ok ("t2")⟩
     (by simp [lookupTx]) (by norm_num) (by norm_num [candidateRate]) rfl⟩

/-! ## C10: a schema error on the bumpfee response keeps the entry -/

/-- C10: if the `bumpfee` call succeeds at the RPC level but its result is
not an object with a string txid field, the tracked entry is not removed —
the store is unchanged even though the call was issued — and, the entry
being intact, the engine issues another `bumpfee` call for the same
original transaction id on any later qualifying processing of it. -/
theorem c10_schema_error_keeps_entry (cfg : Config) (wname : String) (curH lastH : ℤ)
    (st : Store) (txid : String) (info : TxInfo) (env : ItemEnv)
    (ht : lookupTx st txid = some info)
    (hage : cfg.bumpfeeBlockInterval ≤ curH - info.firstBlockHeight)
    (hd : 1 ≤ candidateRate info.currentFeerate cfg.feeBumpAmount cfg.feeCap - info.currentFeerate)
    (hb : cfg.isBump = true)
    (hv : env.bump = BumpOutcome.notAnObject ∨ env.bump = BumpOutcome.noTxidField) :
    (processItem cfg wname curH lastH st (UnspentItem.valid txid) env).1 = st ∧
    Event.bumpCall txid (roundedCandidate cfg info) ∈
      (processItem cfg wname curH lastH st (UnspentItem.valid txid) env).2 ∧
    (∀ curH2 lastH2 : ℤ, ∀ env2 : ItemEnv,
      cfg.bumpfeeBlockInterval ≤ curH2 - info.firstBlockHeight →
      Event.bumpCall txid (roundedCandidate cfg info) ∈
        (processItem cfg wname curH2 lastH2 st (UnspentItem.valid txid) env2).2) := by
  refine ⟨?_, ?_, ?_⟩
  · rw [processItem_tracked_eq cfg wname curH lastH st txid info env ht,
      escalate_bump_fail cfg curH txid info _ st hage hd hb (Or.inr hv)]
  · rw [processItem_tracked_eq cfg wname curH lastH st txid info env ht]
    exact List.mem_append_right _ (bumpCall_mem_escalate cfg curH txid info _ st hage hd hb)
  · intro curH2 lastH2 env2 hage2
    rw [processItem_tracked_eq cfg wname curH2 lastH2 st txid info env2 ht]
    exact List.mem_append_right _ (bumpCall_mem_escalate cfg curH2 txid info _ st hage2 hd hb)

/-- C10 witness: a concrete schema error (result not an object) leaves the
store unchanged with the call issued. -/
theorem c10_schema_error_keeps_entry_witness :
    lookupTx [(("t"), ⟨("w"), 100, 5⟩)] ("t") = some ⟨("w"), 100, 5⟩ ∧
    ((⟨true, 5, 2, 10⟩ : Config).bumpfeeBlockInterval ≤ 105 - (100:ℤ)) ∧
    (1 ≤ candidateRate 5 2 10 - 5) ∧
    ((⟨true, 5, 2, 10⟩ : Config).isBump = true) ∧
    ((⟨none, BumpOutcome.notAnObject⟩ : ItemEnv).bump = BumpOutcome.notAnObject ∨
     (⟨none, BumpOutcome.notAnObject⟩ : ItemEnv).bump = BumpOutcome.noTxidField) ∧
    ((processItem ⟨true, 5, 2, 10⟩ ("w") 105 100 [(("t"), ⟨("w"), 100, 5⟩)]
        (UnspentItem.valid ("t")) ⟨none, BumpOutcome.notAnObject⟩).1 =
      [(("t"), ⟨("w"), 100, 5⟩)] ∧
     Event.bumpCall ("t") (roundedCandidate ⟨true, 5, 2, 10⟩ ⟨("w"), 100, 5⟩) ∈
       (processItem ⟨true, 5, 2, 10⟩ ("w") 105 100 [(("t"), ⟨("w"), 100, 5⟩)]
         (UnspentItem.valid ("t")) ⟨none, BumpOutcome.notAnObject⟩).2 ∧
     (∀ curH2 lastH2 : ℤ, ∀ env2 : ItemEnv,
       (⟨true, 5, 2, 10⟩ : Config).bumpfeeBlockInterval ≤ curH2 - (⟨("w"), 100, 5⟩ : TxInfo).firstBlockHeight →
       Event.bumpCall ("t") (roundedCandidate ⟨true, 5, 2, 10⟩ ⟨("w"), 100, 5⟩) ∈
         (processItem ⟨true, 5, 2, 10⟩ ("w") curH2 lastH2 [(("t"), ⟨("w"), 100, 5⟩)]
           (UnspentItem.valid ("t")) env2).2)) :=
  ⟨by simp [lookupTx], by norm_num, by norm_num [candidateRate], rfl, Or.inl rfl,
   c10_schema_error_keeps_entry ⟨true, 5, 2, 10⟩ ("w") 105 100 [(("t"), ⟨("w"), 100, 5⟩)]
     ("t") ⟨("w"), 100, 5⟩ ⟨none, BumpOutcome.notAnObject⟩
     (by simp [lookupTx]) (by norm_num) (by norm_num [candidateRate]) rfl (Or.inl rfl)⟩

/-! ## C3: dry-run escalation -/

set_option maxHeartbeats 1000000 in
/-- C3 counterexample: the claim says a dry-run escalation means the
transaction id is not re-proposed on later cycles; but the removal only
empties the store — the transaction itself stays unconfirmed (nothing was
submitted), so a later cycle re-tracks it and proposes it again.  Here,
with an age threshold of 0 blocks, the dry-run removal event for the same
transaction id appears in cycle 1 and again in cycle 2. -/
theorem c3_counterexample :
    Event.dryRunRemove ("t") 7 ∈ (((runCycles ⟨false, 0, 2, 10⟩ [] (-1)
      [⟨some 100, [WalletEntry.wallet ("w")
          (some [(UnspentItem.valid ("t"), ⟨some (1/20000000, ("ab")), BumpOutcome.rpcError⟩)])]⟩,
       ⟨some 101, [WalletEntry.wallet ("w")
          (some [(UnspentItem.valid ("t"), ⟨some (1/20000000, ("ab")), BumpOutcome.rpcError⟩)])]⟩]).map
      CycleResult.events).getD 0 []) ∧
    Event.dryRunRemove ("t") 7 ∈ (((runCycles ⟨false, 0, 2, 10⟩ [] (-1)
      [⟨some 100, [WalletEntry.wallet ("w")
          (some [(UnspentItem.valid ("t"), ⟨some (1/20000000, ("ab")), BumpOutcome.rpcError⟩)])]⟩,
       ⟨some 101, [WalletEntry.wallet ("w")
          (some [(UnspentItem.valid ("t"), ⟨some (1/20000000, ("ab")), BumpOutcome.rpcError⟩)])]⟩]).map
      CycleResult.events).getD 1 []) := by
  have habs : |(1:ℚ)/20000000| = 1/20000000 := abs_of_pos (by norm_num)
  have h5 : estimateFeerate (1/20000000) ("ab") = 5 := by
    norm_num [estimateFeerate, show ("ab").length = 2 from rfl, habs]
  norm_num [runCycles, processCycle, processWallets, processWallet, processItems, processItem,
    escalate, ageEvents, lookupTx, eraseTx, candidateRate, roundedCandidate, goRound, h5]

/-- C3 (amended): when a tracked transaction passes the age threshold and
the minimum-increment test with the apply policy disabled, no `bumpfee`
call is made, the dry-run removal is logged and the tracked entry is
removed — so the id is not re-proposed while it stays untracked; but if
the transaction appears again as an unconfirmed output on a later cycle
it is tracked afresh (new first-seen height and fee estimate) and can be
proposed for escalation again after re-aging. -/
theorem c3_dry_run (cfg : Config) (wname : String) (curH lastH : ℤ) (st : Store)
    (txid : String) (info : TxInfo) (env : ItemEnv)
    (ht : lookupTx st txid = some info)
    (hage : cfg.bumpfeeBlockInterval ≤ curH - info.firstBlockHeight)
    (hd : 1 ≤ candidateRate info.currentFeerate cfg.feeBumpAmount cfg.feeCap - info.currentFeerate)
    (hb : cfg.isBump = false) :
    lookupTx (processItem cfg wname curH lastH st (UnspentItem.valid txid) env).1 txid = none ∧
    (∀ x : String, ∀ r : ℤ, Event.bumpCall x r ∉
      (processItem cfg wname curH lastH st (UnspentItem.valid txid) env).2) ∧
    Event.dryRunRemove txid (roundedCandidate cfg info) ∈
      (processItem cfg wname curH lastH st (UnspentItem.valid txid) env).2 := by
  rw [processItem_tracked_eq cfg wname curH lastH st txid info env ht,
    escalate_dry cfg curH txid info env.bump st hage hd hb]
  refine ⟨?_, ?_, ?_⟩
  · rw [lookupTx_eraseTx]
    simp
  · intro x r h
    rcases List.mem_append.mp h with h | h
    · exact bumpCall_not_mem_ageEvents wname curH lastH st x r h
    · simp at h
  · exact List.mem_append_right _ (by simp)

/-- C3 witness: the dry-run path at a concrete input (the specification's
own scenario: threshold 5 blocks, bump 2, cap 10, tracked at height 100
with rate 5, processed at height 106). -/
theorem c3_dry_run_witness :
    lookupTx [(("t"), ⟨("w"), 100, 5⟩)] ("t") = some ⟨("w"), 100, 5⟩ ∧
    ((⟨false, 5, 2, 10⟩ : Config).bumpfeeBlockInterval ≤ 106 - (100:ℤ)) ∧
    (1 ≤ candidateRate 5 2 10 - 5) ∧
    ((⟨false, 5, 2, 10⟩ : Config).isBump = false) ∧
    (lookupTx (processItem ⟨false, 5, 2, 10⟩ ("w") 106 100 [(("t"), ⟨("w"), 100, 5⟩)]
        (UnspentItem.valid ("t")) ⟨none, BumpOutcome.rpcError⟩).1 ("t") = none ∧
     (∀ x : String, ∀ r : ℤ, Event.bumpCall x r ∉
       (processItem ⟨false, 5, 2, 10⟩ ("w") 106 100 [(("t"), ⟨("w"), 100, 5⟩)]
         (UnspentItem.valid ("t")) ⟨none, BumpOutcome.rpcError⟩).2) ∧
     Event.dryRunRemove ("t") (roundedCandidate ⟨false, 5, 2, 10⟩ ⟨("w"), 100, 5⟩) ∈
       (processItem ⟨false, 5, 2, 10⟩ ("w") 106 100 [(("t"), ⟨("w"), 100, 5⟩)]
         (UnspentItem.valid ("t")) ⟨none, BumpOutcome.rpcError⟩).2) :=
  ⟨by simp [lookupTx], by norm_num, by norm_num [candidateRate], rfl,
   c3_dry_run ⟨false, 5, 2, 10⟩ ("w") 106 100 [(("t"), ⟨("w"), 100, 5⟩)]
     ("t") ⟨("w"), 100, 5⟩ ⟨none, BumpOutcome.rpcError⟩
     (by simp [lookupTx]) (by norm_num) (by norm_num [candidateRate]) rfl⟩

/-! ## C7: age reports on height change -/

theorem ageMap_count_zero (wname : String) (curH : ℤ) (st : Store) (t : String) (a : ℤ)
    (ht : lookupTx st t = none) :
    ((st.filter fun p => p.2.walletName == wname).map
      fun p => Event.ageReport wname p.1 (curH - p.2.firstBlockHeight)).count
      (Event.ageReport wname t a) = 0 := by
  rw [List.count_eq_zero]
  intro h
  obtain ⟨p, hp, he⟩ := List.mem_map.mp h
  have hpst : p ∈ st := List.mem_of_mem_filter hp
  have hpt : p.1 = t := by injection he
  exact (lookupTx_eq_none_iff st t).mp ht
    (List.mem_map.mpr ⟨p, hpst, hpt⟩)

theorem ageMap_count_one (wname : String) (curH : ℤ) (st : Store) (t : String) (i : TxInfo)
    (hnd : keysNodup st) (ht : lookupTx st t = some i) (hw : i.walletName = wname) :
    ((st.filter fun p => p.2.walletName == wname).map
      fun p => Event.ageReport wname p.1 (curH - p.2.firstBlockHeight)).count
      (Event.ageReport wname t (curH - i.firstBlockHeight)) = 1 := by
  induction st with
  | nil => simp [lookupTx] at ht
  | cons p rest ih =>
    obtain ⟨k, v⟩ := p
    have hnd2 : keysNodup rest := (List.nodup_cons.mp hnd).2
    by_cases hk : k = t
    · subst hk
      have hv : v = i := by simpa [lookupTx] using ht
      subst hv
      have hrest : lookupTx rest k = none := by
        rw [lookupTx_eq_none_iff]
        exact (List.nodup_cons.mp hnd).1
      rw [List.filter_cons, if_pos (by simpa using hw)]
      rw [List.map_cons, List.count_cons_self]
      rw [ageMap_count_zero wname curH rest k _ hrest]
    · have ht2 : lookupTx rest t = some i := by
        have hkt : ¬ k = t := hk
        simpa [lookupTx, hkt] using ht
      have hne : Event.ageReport wname t (curH - i.firstBlockHeight) ≠
          Event.ageReport wname k (curH - v.firstBlockHeight) := by
        intro h
        injection h with h1 h2 h3
        exact hk h2.symm
      rw [List.filter_cons]
      by_cases hvw : (v.walletName == wname) = true
      · rw [if_pos hvw, List.map_cons, List.count_cons_of_ne hne]
        exact ih hnd2 ht2
      · rw [if_neg hvw]
        exact ih hnd2 ht2

theorem ageEvents_count_one (wname : String) (curH lastH : ℤ) (st : Store)
    (t : String) (i : TxInfo)
    (hnd : keysNodup st) (ht : lookupTx st t = some i) (hw : i.walletName = wname)
    (hc : curH ≠ lastH ∧ lastH ≠ -1) :
    (ageEvents wname curH lastH st).count
      (Event.ageReport wname t (curH - i.firstBlockHeight)) = 1 := by
  rw [ageEvents, if_pos hc]
  exact ageMap_count_one wname curH st t i hnd ht hw

set_option maxHeartbeats 1000000 in
/-- C7 counterexample: the claim says one age report per tracked
transaction of the wallet is emitted when the height changes; but the
age-report block sits inside the per-output loop, so a wallet with two
unconfirmed outputs emits the report for the tracked transaction
twice in one cycle. -/
theorem c7_counterexample :
    (processCycle ⟨true, 1000, 2, 10⟩ [(("a"), ⟨("w"), 100, 5⟩), (("b"), ⟨("w"), 100, 6⟩)] 100
      ⟨some 105, [WalletEntry.wallet ("w")
        (some [(UnspentItem.valid ("a"), ⟨none, BumpOutcome.rpcError⟩),
               (UnspentItem.valid ("b"), ⟨none, BumpOutcome.rpcError⟩)])]⟩).events.count
      (Event.ageReport ("w") ("a") 5) = 2 := by
  norm_num [processCycle, processWallets, processWallet, processItems, processItem,
    escalate, ageEvents, lookupTx, candidateRate, roundedCandidate, goRound,
    List.count_cons]
  simp

/-- C7 (amended): the age-report block runs once per successfully
processed unconfirmed output: for each such output, when the current
height differs from the cursor and the cursor is not the -1 sentinel, it
emits exactly one report per tracked transaction of the current wallet,
with `ageBlocks = currentHeight - firstSeenHeight` (so a wallet with k
processed outputs emits k reports per tracked transaction, and a wallet
with none emits none); when the cursor is -1 (first cycle) no age report
is emitted at all. -/
theorem c7_age_reports (cfg : Config) (wname : String) (curH lastH : ℤ) (st : Store)
    (txid : String) (info : TxInfo) (env : ItemEnv) (t : String) (i : TxInfo)
    (hnd : keysNodup st) (htx : lookupTx st txid = some info)
    (ht : lookupTx st t = some i) (hw : i.walletName = wname) :
    ((curH ≠ lastH ∧ lastH ≠ -1) →
      (processItem cfg wname curH lastH st (UnspentItem.valid txid) env).2.count
        (Event.ageReport wname t (curH - i.firstBlockHeight)) = 1) ∧
    (lastH = -1 → ∀ u y : String, ∀ a : ℤ, Event.ageReport u y a ∉
      (processItem cfg wname curH lastH st (UnspentItem.valid txid) env).2) := by
  rw [processItem_tracked_eq cfg wname curH lastH st txid info env htx]
  constructor
  · intro hc
    rw [List.count_append, ageEvents_count_one wname curH lastH st t i hnd ht hw hc,
      List.count_eq_zero.mpr (ageReport_not_mem_escalate cfg curH txid info env.bump st
        wname t (curH - i.firstBlockHeight))]
  · intro hs u y a h
    subst hs
    rcases List.mem_append.mp h with h | h
    · rw [ageEvents_sentinel] at h
      simp at h
    · exact ageReport_not_mem_escalate cfg curH txid info env.bump st u y a h

/-- C7 witness: a single tracked transaction of the wallet, processed as
one output after a height change, gets exactly one age report. -/
theorem c7_age_reports_witness :
    keysNodup [(("t"), ⟨("w"), 100, 5⟩)] ∧
    lookupTx [(("t"), ⟨("w"), 100, 5⟩)] ("t") = some ⟨("w"), 100, 5⟩ ∧
    ((⟨("w"), 100, 5⟩ : TxInfo).walletName = ("w")) ∧
    ((105:ℤ) ≠ 100 ∧ (100:ℤ) ≠ -1) ∧
    (processItem ⟨true, 1000, 2, 10⟩ ("w") 105 100 [(("t"), ⟨("w"), 100, 5⟩)]
        (UnspentItem.valid ("t")) ⟨none, BumpOutcome.rpcError⟩).2.count
      (Event.ageReport ("w") ("t") (105 - (⟨("w"), 100, 5⟩ : TxInfo).firstBlockHeight)) = 1 :=
  ⟨by simp [keysNodup], by simp [lookupTx], rfl, by norm_num,
   (c7_age_reports ⟨true, 1000, 2, 10⟩ ("w") 105 100 [(("t"), ⟨("w"), 100, 5⟩)]
      ("t") ⟨("w"), 100, 5⟩ ⟨none, BumpOutcome.rpcError⟩ ("t") ⟨("w"), 100, 5⟩
      (by simp [keysNodup]) (by simp [lookupTx]) (by simp [lookupTx]) rfl).1
    (by norm_num)⟩

/-! ## C5: a below-minimum increment leaves everything unchanged -/

theorem processItem_preserves_small (cfg : Config) (wname : String) (curH lastH : ℤ)
    (st : Store) (item : UnspentItem) (env : ItemEnv) (t : String) (i : TxInfo)
    (ht : lookupTx st t = some i)
    (hd : candidateRate i.currentFeerate cfg.feeBumpAmount cfg.feeCap - i.currentFeerate < 1) :
    lookupTx (processItem cfg wname curH lastH st item env).1 t = some i ∧
    ∀ r : ℤ, Event.bumpCall t r ∉ (processItem cfg wname curH lastH st item env).2 := by
  cases item with
  | invalid =>
    refine ⟨by simpa [processItem] using ht, ?_⟩
    intro r h
    simp [processItem] at h
  | valid txid =>
    by_cases hxt : txid = t
    · subst hxt
      rw [processItem_tracked_eq cfg wname curH lastH st txid i env ht,
        escalate_skip cfg curH txid i env.bump st hd]
      refine ⟨by simpa using ht, ?_⟩
      intro r h
      have h2 : Event.bumpCall txid r ∈ ageEvents wname curH lastH st := by simpa using h
      exact bumpCall_not_mem_ageEvents wname curH lastH st txid r h2
    · have hne : ¬ t = txid := fun hh => hxt hh.symm
      cases hl : lookupTx st txid with
      | some info =>
        rw [processItem_tracked_eq cfg wname curH lastH st txid info env hl]
        constructor
        · rcases escalate_cases cfg curH txid info env.bump st with h | h | ⟨x, h⟩ | h <;>
            rw [h] <;> simpa [lookupTx_eraseTx, hne] using ht
        · intro r h
          rcases List.mem_append.mp (by simpa using h) with h2 | h2
          · exact bumpCall_not_mem_ageEvents wname curH lastH st t r h2
          · rcases mem_escalate cfg curH txid info env.bump st _ h2 with
              ⟨r2, hh⟩ | ⟨x2, r2, hh⟩ | ⟨r2, hh⟩
            · injection hh with h1 _
              exact hne h1
            · exact absurd hh (by simp)
            · exact absurd hh (by simp)
      | none =>
        cases hg : env.getTx with
        | none =>
          rw [processItem_getTx_fail cfg wname curH lastH st txid env hl hg]
          refine ⟨ht, ?_⟩
          intro r h
          simp at h
        | some p =>
          obtain ⟨fee, hex⟩ := p
          rw [processItem_new_eq cfg wname curH lastH st txid env fee hex hl hg]
          have hlt1 : lookupTx
              ((txid, ⟨wname, curH, estimateFeerate fee hex⟩) :: st) t = some i := by
            simpa [lookupTx, hxt] using ht
          constructor
          · rcases escalate_cases cfg curH txid ⟨wname, curH, estimateFeerate fee hex⟩ env.bump
              ((txid, ⟨wname, curH, estimateFeerate fee hex⟩) :: st) with h | h | ⟨x, h⟩ | h <;>
              rw [h] <;> simpa [lookupTx_eraseTx, hne] using hlt1
          · intro r h
            rcases List.mem_append.mp (by simpa using h) with h2 | h2
            · exact bumpCall_not_mem_ageEvents wname curH lastH _ t r h2
            · rcases mem_escalate cfg curH txid ⟨wname, curH, estimateFeerate fee hex⟩ env.bump
                ((txid, ⟨wname, curH, estimateFeerate fee hex⟩) :: st) _ h2 with
                ⟨r2, hh⟩ | ⟨x2, r2, hh⟩ | ⟨r2, hh⟩
              · injection hh with h1 _
                exact hne h1
              · exact absurd hh (by simp)
              · exact absurd hh (by simp)

theorem processItems_preserves_small (cfg : Config) (wname : String) (curH lastH : ℤ)
    (t : String) (i : TxInfo)
    (hd : candidateRate i.currentFeerate cfg.feeBumpAmount cfg.feeCap - i.currentFeerate < 1) :
    ∀ items : List (UnspentItem × ItemEnv), ∀ st : Store, lookupTx st t = some i →
      lookupTx (processItems cfg wname curH lastH st items).1 t = some i ∧
      ∀ r : ℤ, Event.bumpCall t r ∉ (processItems cfg wname curH lastH st items).2 := by
  intro items
  induction items with
  | nil =>
    intro st ht
    refine ⟨by simpa [processItems] using ht, ?_⟩
    intro r h
    simp [processItems] at h
  | cons pe rest ih =>
    intro st ht
    obtain ⟨item, env⟩ := pe
    have h1 := processItem_preserves_small cfg wname curH lastH st item env t i ht hd
    have h2 := ih (processItem cfg wname curH lastH st item env).1 h1.1
    refine ⟨by simpa [processItems] using h2.1, ?_⟩
    intro r h
    rcases List.mem_append.mp (by simpa [processItems] using h) with h3 | h3
    · exact h1.2 r h3
    · exact h2.2 r h3

theorem processWallet_preserves_small (cfg : Config) (curH lastH : ℤ)
    (t : String) (i : TxInfo) (w : WalletEntry)
    (hd : candidateRate i.currentFeerate cfg.feeBumpAmount cfg.feeCap - i.currentFeerate < 1) :
    ∀ st : Store, lookupTx st t = some i →
      lookupTx (processWallet cfg curH lastH st w).1 t = some i ∧
      ∀ r : ℤ, Event.bumpCall t r ∉ (processWallet cfg curH lastH st w).2 := by
  intro st ht
  cases w with
  | invalidName =>
    refine ⟨by simpa [processWallet] using ht, ?_⟩
    intro r h
    simp [processWallet] at h
  | wallet name scan =>
    cases scan with
    | none =>
      refine ⟨by simpa [processWallet] using ht, ?_⟩
      intro r h
      simp [processWallet] at h
    | some items =>
      exact processItems_preserves_small cfg name curH lastH t i hd items st ht

theorem processWallets_preserves_small (cfg : Config) (curH lastH : ℤ)
    (t : String) (i : TxInfo)
    (hd : candidateRate i.currentFeerate cfg.feeBumpAmount cfg.feeCap - i.currentFeerate < 1) :
    ∀ ws : List WalletEntry, ∀ st : Store, lookupTx st t = some i →
      lookupTx (processWallets cfg curH lastH st ws).1 t = some i ∧
      ∀ r : ℤ, Event.bumpCall t r ∉ (processWallets cfg curH lastH st ws).2 := by
  intro ws
  induction ws with
  | nil =>
    intro st ht
    refine ⟨by simpa [processWallets] using ht, ?_⟩
    intro r h
    simp [processWallets] at h
  | cons w rest ih =>
    intro st ht
    have h1 := processWallet_preserves_small cfg curH lastH t i w hd st ht
    have h2 := ih (processWallet cfg curH lastH st w).1 h1.1
    refine ⟨by simpa [processWallets] using h2.1, ?_⟩
    intro r h
    rcases List.mem_append.mp (by simpa [processWallets] using h) with h3 | h3
    · exact h1.2 r h3
    · exact h2.2 r h3

/-- C5: for a tracked transaction past the age threshold whose candidate
rate exceeds its tracked rate by less than 1, a whole poll cycle issues no
`bumpfee` call for it and leaves its entry with all fields unchanged (the
skip branch mutates nothing, and no other transaction's processing can
remove or alter it), so the same decision repeats every cycle while the
policy is unchanged. -/
theorem c5_small_delta (cfg : Config) (st : Store) (lastH : ℤ) (cenv : CycleEnv)
    (t : String) (i : TxInfo) (h : ℤ)
    (ht : lookupTx st t = some i)
    (hh : cenv.blockCount = some h)
    (hage : cfg.bumpfeeBlockInterval ≤ h - i.firstBlockHeight)
    (hd : candidateRate i.currentFeerate cfg.feeBumpAmount cfg.feeCap - i.currentFeerate < 1) :
    lookupTx (processCycle cfg st lastH cenv).store t = some i ∧
    ∀ r : ℤ, Event.bumpCall t r ∉ (processCycle cfg st lastH cenv).events := by
  have hw := processWallets_preserves_small cfg h lastH t i hd cenv.wallets st ht
  rw [processCycle, hh]
  exact hw

/-- C5 witness: the specification's own scenario (threshold 5, bump 2,
cap 10, tracked at height 100 with rate 9.5, height now 105: candidate
min(11.5, 10) = 10, delta 0.5 < 1). -/
theorem c5_small_delta_witness :
    lookupTx [(("t"), ⟨("w"), 100, 19/2⟩)] ("t") = some ⟨("w"), 100, 19/2⟩ ∧
    (⟨some 105, [WalletEntry.wallet ("w")
        (some [(UnspentItem.valid ("t"), ⟨none, BumpOutcome.rpcError⟩)])]⟩ : CycleEnv).blockCount =
      some 105 ∧
    ((⟨true, 5, 2, 10⟩ : Config).bumpfeeBlockInterval ≤
      105 - (⟨("w"), 100, 19/2⟩ : TxInfo).firstBlockHeight) ∧
    (candidateRate (19/2) 2 10 - 19/2 < 1) ∧
    (lookupTx (processCycle ⟨true, 5, 2, 10⟩ [(("t"), ⟨("w"), 100, 19/2⟩)] 100
        ⟨some 105, [WalletEntry.wallet ("w")
          (some [(UnspentItem.valid ("t"), ⟨none, BumpOutcome.rpcError⟩)])]⟩).store ("t") =
      some ⟨("w"), 100, 19/2⟩ ∧
     ∀ r : ℤ, Event.bumpCall ("t") r ∉
       (processCycle ⟨true, 5, 2, 10⟩ [(("t"), ⟨("w"), 100, 19/2⟩)] 100
         ⟨some 105, [WalletEntry.wallet ("w")
           (some [(UnspentItem.valid ("t"), ⟨none, BumpOutcome.rpcError⟩)])]⟩).events) :=
  ⟨by simp [lookupTx], rfl, by norm_num, by norm_num [candidateRate],
   c5_small_delta ⟨true, 5, 2, 10⟩ [(("t"), ⟨("w"), 100, 19/2⟩)] 100
     ⟨some 105, [WalletEntry.wallet ("w")
       (some [(UnspentItem.valid ("t"), ⟨none, BumpOutcome.rpcError⟩)])]⟩
     ("t") ⟨("w"), 100, 19/2⟩ 105
     (by simp [lookupTx]) rfl (by norm_num) (by norm_num [candidateRate])⟩

/-! ## C6: store invariants (unique keys, no in-place mutation, removal
only via escalation) -/

theorem processItem_step_invariants (cfg : Config) (wname : String) (curH lastH : ℤ)
    (st : Store) (item : UnspentItem) (env : ItemEnv)
    (hnd : keysNodup st) :
    keysNodup (processItem cfg wname curH lastH st item env).1 ∧
    ∀ t : String, ∀ i : TxInfo, lookupTx st t = some i →
      lookupTx (processItem cfg wname curH lastH st item env).1 t = some i ∨
      (lookupTx (processItem cfg wname curH lastH st item env).1 t = none ∧
        ((∃ x : String, ∃ r : ℤ,
            Event.bumpSuccess t x r ∈ (processItem cfg wname curH lastH st item env).2) ∨
         (∃ r : ℤ,
            Event.dryRunRemove t r ∈ (processItem cfg wname curH lastH st item env).2))) := by
  cases item with
  | invalid =>
    refine ⟨by simpa [processItem] using hnd, ?_⟩
    intro t i ht
    exact Or.inl (by simpa [processItem] using ht)
  | valid txid =>
    cases hl : lookupTx st txid with
    | some info =>
      rw [processItem_tracked_eq cfg wname curH lastH st txid info env hl]
      rcases escalate_cases cfg curH txid info env.bump st with h | h | ⟨x, h⟩ | h <;> rw [h]
      · exact ⟨by simpa using hnd, fun t i ht => Or.inl (by simpa using ht)⟩
      · exact ⟨by simpa using hnd, fun t i ht => Or.inl (by simpa using ht)⟩
      · refine ⟨by simpa using keysNodup_eraseTx st txid hnd, ?_⟩
        intro t i ht
        by_cases htt : t = txid
        · subst htt
          refine Or.inr ⟨by simp [lookupTx_eraseTx], Or.inl ⟨x, roundedCandidate cfg info, ?_⟩⟩
          exact List.mem_append_right _ (by simp)
        · exact Or.inl (by simpa [lookupTx_eraseTx, htt] using ht)
      · refine ⟨by simpa using keysNodup_eraseTx st txid hnd, ?_⟩
        intro t i ht
        by_cases htt : t = txid
        · subst htt
          refine Or.inr ⟨by simp [lookupTx_eraseTx], Or.inr ⟨roundedCandidate cfg info, ?_⟩⟩
          exact List.mem_append_right _ (by simp)
        · exact Or.inl (by simpa [lookupTx_eraseTx, htt] using ht)
    | none =>
      cases hg : env.getTx with
      | none =>
        rw [processItem_getTx_fail cfg wname curH lastH st txid env hl hg]
        exact ⟨hnd, fun t i ht => Or.inl ht⟩
      | some p =>
        obtain ⟨fee, hex⟩ := p
        rw [processItem_new_eq cfg wname curH lastH st txid env fee hex hl hg]
        have hnd1 : keysNodup ((txid, ⟨wname, curH, estimateFeerate fee hex⟩) :: st) :=
          keysNodup_cons st txid ⟨wname, curH, estimateFeerate fee hex⟩ hnd hl
        have hpres : ∀ t : String, ∀ i : TxInfo, lookupTx st t = some i →
            lookupTx ((txid, ⟨wname, curH, estimateFeerate fee hex⟩) :: st) t = some i := by
          intro t i ht
          have htt : ¬ txid = t := by
            intro hh
            rw [hh] at hl
            rw [ht] at hl
            exact Option.noConfusion hl
          simpa [lookupTx, htt] using ht
        rcases escalate_cases cfg curH txid ⟨wname, curH, estimateFeerate fee hex⟩ env.bump
          ((txid, ⟨wname, curH, estimateFeerate fee hex⟩) :: st) with h | h | ⟨x, h⟩ | h <;> rw [h]
        · exact ⟨by simpa using hnd1, fun t i ht => Or.inl (by simpa using hpres t i ht)⟩
        · exact ⟨by simpa using hnd1, fun t i ht => Or.inl (by simpa using hpres t i ht)⟩
        · refine ⟨by simpa using keysNodup_eraseTx _ txid hnd1, ?_⟩
          intro t i ht
          have htt : ¬ t = txid := by
            intro hh
            rw [hh] at ht
            rw [ht] at hl
            exact Option.noConfusion hl
          exact Or.inl (by simpa [lookupTx_eraseTx, htt] using hpres t i ht)
        · refine ⟨by simpa using keysNodup_eraseTx _ txid hnd1, ?_⟩
          intro t i ht
          have htt : ¬ t = txid := by
            intro hh
            rw [hh] at ht
            rw [ht] at hl
            exact Option.noConfusion hl
          exact Or.inl (by simpa [lookupTx_eraseTx, htt] using hpres t i ht)

theorem processItems_nodup (cfg : Config) (wname : String) (curH lastH : ℤ) :
    ∀ items : List (UnspentItem × ItemEnv), ∀ st : Store, keysNodup st →
      keysNodup (processItems cfg wname curH lastH st items).1 := by
  intro items
  induction items with
  | nil =>
    intro st hnd
    simpa [processItems] using hnd
  | cons pe rest ih =>
    intro st hnd
    obtain ⟨item, env⟩ := pe
    have h1 := (processItem_step_invariants cfg wname curH lastH st item env hnd).1
    simpa [processItems] using ih (processItem cfg wname curH lastH st item env).1 h1

theorem processWallet_nodup (cfg : Config) (curH lastH : ℤ) (w : WalletEntry) :
    ∀ st : Store, keysNodup st → keysNodup (processWallet cfg curH lastH st w).1 := by
  intro st hnd
  cases w with
  | invalidName => simpa [processWallet] using hnd
  | wallet name scan =>
    cases scan with
    | none => simpa [processWallet] using hnd
    | some items => exact processItems_nodup cfg name curH lastH items st hnd

theorem processWallets_nodup (cfg : Config) (curH lastH : ℤ) :
    ∀ ws : List WalletEntry, ∀ st : Store, keysNodup st →
      keysNodup (processWallets cfg curH lastH st ws).1 := by
  intro ws
  induction ws with
  | nil =>
    intro st hnd
    simpa [processWallets] using hnd
  | cons w rest ih =>
    intro st hnd
    have h1 := processWallet_nodup cfg curH lastH w st hnd
    simpa [processWallets] using ih (processWallet cfg curH lastH st w).1 h1

theorem processCycle_nodup (cfg : Config) (st : Store) (lastH : ℤ) (cenv : CycleEnv)
    (hnd : keysNodup st) : keysNodup (processCycle cfg st lastH cenv).store := by
  cases hb : cenv.blockCount with
  | none =>
    rw [processCycle, hb]
    exact hnd
  | some h =>
    rw [processCycle, hb]
    exact processWallets_nodup cfg h lastH cenv.wallets st hnd

/-- C6: the state store invariants hold after every step.  Since a poll
cycle is exactly a sequence of per-item steps, and both facts below are
proved for an arbitrary starting store satisfying the invariant, they hold
after every step of every cycle: (1) the store keeps at most one entry per
transaction id (after each step and after a whole cycle); (2) a step never
modifies a field of an existing entry — it either leaves the entry exactly
as it was or removes it, and a removal is always accompanied by a
successful-bump or dry-run-removal escalation event (there is no removal
on confirmation or any other path). -/
theorem c6_store_invariants (cfg : Config) (wname : String) (curH lastH : ℤ)
    (st : Store) (item : UnspentItem) (env : ItemEnv) (cenv : CycleEnv)
    (t : String) (i : TxInfo)
    (hnd : keysNodup st) (ht : lookupTx st t = some i) :
    keysNodup (processItem cfg wname curH lastH st item env).1 ∧
    (lookupTx (processItem cfg wname curH lastH st item env).1 t = some i ∨
      (lookupTx (processItem cfg wname curH lastH st item env).1 t = none ∧
        ((∃ x : String, ∃ r : ℤ,
            Event.bumpSuccess t x r ∈ (processItem cfg wname curH lastH st item env).2) ∨
         (∃ r : ℤ,
            Event.dryRunRemove t r ∈ (processItem cfg wname curH lastH st item env).2)))) ∧
    keysNodup (processCycle cfg st lastH cenv).store :=
  ⟨(processItem_step_invariants cfg wname curH lastH st item env hnd).1,
   (processItem_step_invariants cfg wname curH lastH st item env hnd).2 t i ht,
   processCycle_nodup cfg st lastH cenv hnd⟩

/-- C6 witness: the invariants at a concrete store and step. -/
theorem c6_store_invariants_witness :
    keysNodup [(("t"), ⟨("w"), 100, 5⟩)] ∧
    lookupTx [(("t"), ⟨("w"), 100, 5⟩)] ("t") = some ⟨("w"), 100, 5⟩ ∧
    (keysNodup (processItem ⟨true, 5, 2, 10⟩ ("w") 105 100 [(("t"), ⟨("w"), 100, 5⟩)]
        UnspentItem.invalid ⟨none, BumpOutcome.rpcError⟩).1 ∧
     (lookupTx (processItem ⟨true, 5, 2, 10⟩ ("w") 105 100 [(("t"), ⟨("w"), 100, 5⟩)]
          UnspentItem.invalid ⟨none, BumpOutcome.rpcError⟩).1 ("t") = some ⟨("w"), 100, 5⟩ ∨
       (lookupTx (processItem ⟨true, 5, 2, 10⟩ ("w") 105 100 [(("t"), ⟨("w"), 100, 5⟩)]
            UnspentItem.invalid ⟨none, BumpOutcome.rpcError⟩).1 ("t") = none ∧
         ((∃ x : String, ∃ r : ℤ,
             Event.bumpSuccess ("t") x r ∈ (processItem ⟨true, 5, 2, 10⟩ ("w") 105 100
               [(("t"), ⟨("w"), 100, 5⟩)] UnspentItem.invalid ⟨none, BumpOutcome.rpcError⟩).2) ∨
          (∃ r : ℤ,
             Event.dryRunRemove ("t") r ∈ (processItem ⟨true, 5, 2, 10⟩ ("w") 105 100
               [(("t"), ⟨("w"), 100, 5⟩)] UnspentItem.invalid ⟨none, BumpOutcome.rpcError⟩).2)))) ∧
     keysNodup (processCycle ⟨true, 5, 2, 10⟩ [(("t"), ⟨("w"), 100, 5⟩)] 100
        ⟨some 105, []⟩).store) :=
  ⟨by simp [keysNodup], by simp [lookupTx],
   c6_store_invariants ⟨true, 5, 2, 10⟩ ("w") 105 100 [(("t"), ⟨("w"), 100, 5⟩)]
     UnspentItem.invalid ⟨none, BumpOutcome.rpcError⟩ ⟨some 105, []⟩
     ("t") ⟨("w"), 100, 5⟩ (by simp [keysNodup]) (by simp [lookupTx])⟩
